import Mathlib

/-!
Verification of the core of a BitTorrent leecher against its specification.

The development shallowly embeds the Rust source: byte streams are `List Nat`
(each element a byte value), machine integers are `Nat` with explicit
truncation where the source truncates, fallible reads return `Option`, and
a Rust panic (`assert!`, `assert_eq!`, arithmetic underflow in debug builds)
is modelled by a dedicated failure constructor or by `none`.
-/

/-! ## Byte-level helpers -/

/-- Big-endian 4-byte encoding of a 32-bit value, as written by
`write_u32::<NetworkEndian>` / `u32::to_be_bytes`. -/
def u32BE (n : Nat) : List Nat :=
  [n / 2 ^ 24 % 256, n / 2 ^ 16 % 256, n / 2 ^ 8 % 256, n % 256]

/-- Little-endian 4-byte encoding of a 32-bit value, as written by
`write_u32_le`. -/
def u32LE (n : Nat) : List Nat :=
  [n % 256, n / 2 ^ 8 % 256, n / 2 ^ 16 % 256, n / 2 ^ 24 % 256]

/-- Big-endian 2-byte encoding of a 16-bit value (`u16::to_be_bytes`). -/
def u16BE (n : Nat) : List Nat :=
  [n / 256 % 256, n % 256]

/-- Big-endian 8-byte encoding of a 64-bit value. -/
def u64BE (n : Nat) : List Nat :=
  [n / 2 ^ 56 % 256, n / 2 ^ 48 % 256, n / 2 ^ 40 % 256, n / 2 ^ 32 % 256,
   n / 2 ^ 24 % 256, n / 2 ^ 16 % 256, n / 2 ^ 8 % 256, n % 256]

/-- Reading a big-endian `u32` from the head of a byte stream
(`read_u32` / `read_u32::<NetworkEndian>`); fails when fewer than four
bytes remain. -/
def readU32BE : List Nat → Option (Nat × List Nat)
  | b0 :: b1 :: b2 :: b3 :: rest => some (((b0 * 256 + b1) * 256 + b2) * 256 + b3, rest)
  | _ => none

/-- Reading a big-endian `u64` from the head of a byte stream. -/
def readU64BE : List Nat → Option (Nat × List Nat)
  | b0 :: b1 :: b2 :: b3 :: b4 :: b5 :: b6 :: b7 :: rest =>
    some (((((((b0 * 256 + b1) * 256 + b2) * 256 + b3) * 256 + b4) * 256 + b5) * 256 + b6)
            * 256 + b7, rest)
  | _ => none

/-! ## Peer-wire messages (src/peer.rs) -/

/-- Message ids of the peer-wire protocol (`enum MessageId`). -/
inductive MessageId
  | Choke
  | Unchoke
  | Interested
  | NotInterested
  | Have
  | Bitfield
  | Request
  | Piece
  | Cancel
  | Error
deriving DecidableEq, Repr

/-- Conversion `From<u8> for MessageId`: ids outside 0..=8 map to `Error`. -/
def MessageId.ofByte (value : Nat) : MessageId :=
  match value with
  | 0 => .Choke
  | 1 => .Unchoke
  | 2 => .Interested
  | 3 => .NotInterested
  | 4 => .Have
  | 5 => .Bitfield
  | 6 => .Request
  | 7 => .Piece
  | 8 => .Cancel
  | _ => .Error

/-- Conversion `From<MessageId> for u8`; the source panics on `Error`,
modelled as `none`. -/
def MessageId.toByte : MessageId → Option Nat
  | .Choke => some 0
  | .Unchoke => some 1
  | .Interested => some 2
  | .NotInterested => some 3
  | .Have => some 4
  | .Bitfield => some 5
  | .Request => some 6
  | .Piece => some 7
  | .Cancel => some 8
  | .Error => none

/-- A decoded peer-wire message (`struct Message`). -/
structure Message where
  length : Nat
  id : MessageId
  payload : List Nat
deriving DecidableEq, Repr

/-- The embedding of `Message::decode`: read a big-endian `u32` length
prefix, then one id byte, then `length - 1` payload bytes.  The source
computes `(length - 1) as usize` with `length: u32`; when `length = 0`
this subtraction underflows (a panic in debug builds, an oversized
`read_exact` that cannot be satisfied in release builds), so the
`length = 0` case is modelled as failure.  Returns the message and the
unconsumed rest of the stream. -/
def Message.decode (input : List Nat) : Option (Message × List Nat) :=
  match readU32BE input with
  | none => none
  | some (length, rest) =>
    match rest with
    | [] => none
    | idByte :: rest2 =>
      if length = 0 then
        none
      else if rest2.length < length - 1 then
        none
      else
        some (⟨length, MessageId.ofByte idByte, rest2.take (length - 1)⟩,
              rest2.drop (length - 1))

/-- The embedding of `Message::encode`: `write_u32_le(payload.len() + 1)`,
then the id byte, then the payload.  Note the length prefix is written
LITTLE-endian (`write_u32_le`).  The id conversion panics on `Error`,
hence the `Option`. -/
def Message.encode (id : MessageId) (payload : List Nat) : Option (List Nat) :=
  match id.toByte with
  | none => none
  | some idByte => some (u32LE ((payload.length + 1) % 2 ^ 32) ++ idByte :: payload)

/-! ## Block requests (src/block.rs) and their use in `Peer::participate` -/

/-- The transfer block size `BLOCK_SIZE = 1 << 14` from src/block.rs. -/
def BLOCK_SIZE : Nat := 1 <<< 14

/-- A block request (`struct Request` in src/block.rs). -/
structure Request where
  piece_index : Nat
  begin : Nat
  length : Nat
deriving DecidableEq, Repr

/-- The embedding of `block::Request::new`: `begin = plength - remaining_piece`
and `length = min(BLOCK_SIZE, remaining_piece)` (u32 arithmetic; the
subtraction matches `Nat` subtraction whenever `remaining_piece ≤ plength`,
which holds at every call site reached below). -/
def Request.new (piece_index remaining_piece plength : Nat) : Request :=
  ⟨piece_index, plength - remaining_piece, min BLOCK_SIZE remaining_piece⟩

/-- The 12-byte payload written by `block::Request::encode`. -/
def Request.encode (r : Request) : List Nat :=
  u32BE r.piece_index ++ u32BE r.begin ++ u32BE r.length

/-- The request `Peer::participate` builds for block index `block` of piece
`npiece` (src/peer.rs line 126): it passes the BLOCK INDEX as the
`remaining_piece` argument of `block::Request::new`. -/
def participateRequest (npiece block piece_length : Nat) : Request :=
  Request.new npiece block piece_length

/-- Modelled from the spec: the request the specification prescribes for
block `b` of a piece with `total_blocks` blocks — `begin = b · 16384` and
`length = 16384` for every block but the last, whose length is
`piece_length − (total_blocks − 1) · 16384`. -/
def specBlockRequest (npiece b piece_length total_blocks : Nat) : Request :=
  ⟨npiece, b * BLOCK_SIZE,
    if b + 1 = total_blocks then piece_length - (total_blocks - 1) * BLOCK_SIZE
    else BLOCK_SIZE⟩

/-! ## Bitfield (src/peer.rs) -/

/-- Eight-bit right rotation, the embedding of `u8::rotate_right` applied
to values below 256. -/
def rotr8 (x n : Nat) : Nat :=
  ((x >>> (n % 8)) ||| (x <<< ((8 - n % 8) % 8))) % 256

/-- The embedding of `Bitfield::has_piece`: byte index `piece_i / 8`, mask
`1u8.rotate_right(piece_i % 8 + 1)`; an index beyond the payload
(`payload.get` returning `None`) yields `false`. -/
def Bitfield.has_piece (payload : List Nat) (piece_i : Nat) : Bool :=
  match payload.get? (piece_i / 8) with
  | none => false
  | some byte => decide (byte &&& rotr8 1 (piece_i % 8 + 1) ≠ 0)

/-! ## Compact peer lists (src/tracker/http.rs and src/tracker/udp.rs) -/

/-- An IPv4 socket address (`SocketAddrV4`): four address octets and a
16-bit port. -/
structure SockAddr where
  a : Nat
  b : Nat
  c : Nat
  d : Nat
  port : Nat
deriving DecidableEq, Repr

/-- Well-formedness of a `SockAddr` as the Rust types guarantee it:
octets are bytes and the port fits in 16 bits. -/
def SockAddr.wf (p : SockAddr) : Prop :=
  p.a < 256 ∧ p.b < 256 ∧ p.c < 256 ∧ p.d < 256 ∧ p.port < 65536

instance (p : SockAddr) : Decidable p.wf := by
  unfold SockAddr.wf; infer_instance

/-- Parsing a byte stream into 6-byte compact peers, dropping any
incomplete trailing chunk: the common semantics of `chunks_exact(6)` in
`PeersVisitor::visit_bytes` and of the `read_exact`-until-failure loop in
`udp::Response::read`.  The port is `u16::from_be_bytes([buf[4], buf[5]])`. -/
def peersChunks : List Nat → List SockAddr
  | b0 :: b1 :: b2 :: b3 :: b4 :: b5 :: rest =>
    ⟨b0, b1, b2, b3, b4 * 256 + b5⟩ :: peersChunks rest
  | _ => []

/-- The embedding of `Peers::serialize` (src/tracker/http.rs): for each
peer, the four address octets followed by the port in big-endian. -/
def Peers.serialize : List SockAddr → List Nat
  | [] => []
  | p :: ps =>
    p.a :: p.b :: p.c :: p.d :: (p.port / 256 % 256) :: (p.port % 256) :: Peers.serialize ps

/-- The embedding of `PeersVisitor::visit_bytes` (src/tracker/http.rs):
reject byte strings whose length is not a multiple of 6, otherwise decode
each 6-byte chunk into a socket address. -/
def visit_bytes (v : List Nat) : Option (List SockAddr) :=
  if v.length % 6 ≠ 0 then none else some (peersChunks v)

/-! ## UDP tracker responses (src/tracker/udp.rs) -/

/-- The payload of a Connect response (`struct ConnectResponse`). -/
structure ConnectResponse where
  connection_id : Nat
  transaction_id : Nat
deriving DecidableEq, Repr

/-- The payload of an Announce response (`struct AnnounceResponse`). -/
structure AnnounceResponse where
  transaction_id : Nat
  interval : Nat
  leechers : Nat
  seeders : Nat
  peers : List SockAddr
deriving DecidableEq, Repr

/-- Per-torrent statistics in a Scrape response
(`struct TorrentScrapeStatistics`). -/
structure TorrentScrapeStatistics where
  seeders : Nat
  completed : Nat
  leechers : Nat
deriving DecidableEq, Repr

/-- The payload of a Scrape response (`struct ScrapeResponse`). -/
structure ScrapeResponse where
  transaction_id : Nat
  torrent_stats : List TorrentScrapeStatistics
deriving DecidableEq, Repr

/-- The payload of an Error response (`struct ErrorResponse`); the message
is kept as raw bytes (the source decodes them with `from_utf8_lossy`). -/
structure ErrorResponse where
  transaction_id : Nat
  message : List Nat
deriving DecidableEq, Repr

/-- A decoded UDP tracker response (`enum Response`). -/
inductive UdpResponse
  | connect (r : ConnectResponse)
  | announce (r : AnnounceResponse)
  | scrape (r : ScrapeResponse)
  | error (r : ErrorResponse)
deriving DecidableEq, Repr

/-- The 12-byte chunk decoding of scrape statistics
(`chunks_exact(12)` with three big-endian `u32` reads per chunk). -/
def scrapeChunks : List Nat → List TorrentScrapeStatistics
  | b0 :: b1 :: b2 :: b3 :: b4 :: b5 :: b6 :: b7 :: b8 :: b9 :: b10 :: b11 :: rest =>
    ⟨((b0 * 256 + b1) * 256 + b2) * 256 + b3,
     ((b4 * 256 + b5) * 256 + b6) * 256 + b7,
     ((b8 * 256 + b9) * 256 + b10) * 256 + b11⟩ :: scrapeChunks rest
  | _ => []

/-- The embedding of `udp::Response::read`: a big-endian `u32` action and
`u32` transaction id, then a body selected by the action; actions other
than 0..=3 are an `InvalidData` error.  Note the function itself performs
NO transaction-id comparison. -/
def Response.read (bytes : List Nat) : Option UdpResponse :=
  match readU32BE bytes with
  | none => none
  | some (action, r1) =>
    match readU32BE r1 with
    | none => none
    | some (transaction_id, r2) =>
      match action with
      | 0 =>
        match readU64BE r2 with
        | none => none
        | some (connection_id, _) => some (.connect ⟨connection_id, transaction_id⟩)
      | 1 =>
        match readU32BE r2 with
        | none => none
        | some (interval, r3) =>
          match readU32BE r3 with
          | none => none
          | some (leechers, r4) =>
            match readU32BE r4 with
            | none => none
            | some (seeders, r5) =>
              some (.announce ⟨transaction_id, interval, leechers, seeders, peersChunks r5⟩)
      | 2 => some (.scrape ⟨transaction_id, scrapeChunks r2⟩)
      | 3 => some (.error ⟨transaction_id, r2⟩)
      | _ => none

/-! ## The UDP announce loop of `download::all` (src/download.rs) -/

/-- Outcome of handling one received tracker response in the `'transmit`
loop of `download::all`. -/
inductive HandleOutcome
  | updated (action connection_id : Nat)
  | gotPeers (peers : List SockAddr)
  | ignored
  | panicked
deriving DecidableEq, Repr

/-- The embedding of the response-dispatch step of `download::all`
(src/download.rs lines 122-140): a Connect response whose transaction id
equals the outstanding one sets `action = 1` and stores the connection
id; an Announce response with a matching transaction id yields the peer
list; a MISMATCHED transaction id hits `assert_eq!` and panics; any other
response variant falls to the `_ => {}` arm and is ignored. -/
def handleResponse (transaction_id : Nat) (res : UdpResponse) : HandleOutcome :=
  match res with
  | .connect c =>
    if c.transaction_id = transaction_id then .updated 1 c.connection_id else .panicked
  | .announce a =>
    if a.transaction_id = transaction_id then .gotPeers a.peers else .panicked
  | _ => .ignored

/-- One run of the send-retry loop of `download::all` (src/download.rs
lines 42-67, identical at lines 82-107): `sendOk k` tells whether the
k-th `send_to` call succeeds.  Returns (whether a send eventually
succeeded, how many send calls were made, the list of back-off delays
slept in seconds).  The loop state is `attempts` (starting at 0, bound
`max_retries = 8` checked as `attempts > max_retries`) and `delay`
(starting at 15 s, doubled after every failed send).  The structural
`fuel` argument only bounds the recursion; starting from
`attempts = 0` with `fuel = 10` the guard `attempts > 8` always fires
before the fuel runs out. -/
def retryLoopAux (sendOk : Nat → Bool) : Nat → Nat → Nat → Bool × Nat × List Nat
  | 0, _, _ => (false, 0, [])
  | fuel + 1, attempts, delay =>
    if attempts > 8 then (false, 0, [])
    else if sendOk attempts then (true, 1, [])
    else
      let r := retryLoopAux sendOk fuel (attempts + 1) (delay * 2)
      (r.1, r.2.1 + 1, delay :: r.2.2)

/-- The send-retry loop entered with `attempts = 0`, `delay = 15`. -/
def retryLoop (sendOk : Nat → Bool) : Bool × Nat × List Nat :=
  retryLoopAux sendOk 10 0 15

/-! ## Scheduler setup and piece commitment (src/download.rs) -/

/-- The partition performed by the piece loop at scheduler start
(src/download.rs lines 185-192): for each piece index (the `Nat`
argument numbers the first piece of the list), a piece whose
participating-peer set is empty goes to the `no_peers` list, every other
piece to `need_pieces`. -/
def splitByHolders : List (List Nat) → Nat → List Nat × List Nat
  | [], _ => ([], [])
  | h :: rest, i =>
    let r := splitByHolders rest (i + 1)
    if h = [] then (i :: r.1, r.2) else (r.1, i :: r.2)

/-- Outcome of scheduler setup. -/
inductive SetupOutcome
  | proceed (pieces : List Nat)
  | panicked
deriving DecidableEq, Repr

/-- The embedding of scheduler setup (src/download.rs lines 182-194):
split the pieces by holders, then `assert!(no_peers.is_empty())` — the
download panics as soon as ANY piece has no holding peer; otherwise it
proceeds with the pieces that have holders. -/
def setupPieces (holders : List (List Nat)) : SetupOutcome :=
  if (splitByHolders holders 0).1 = [] then .proceed (splitByHolders holders 0).2
  else .panicked

/-- Splicing `data` into `buf` at offset `off`
(`buf[off..][..data.len()].copy_from_slice(&data)`). -/
def writeAt (buf : List Nat) (off : Nat) (data : List Nat) : List Nat :=
  buf.take off ++ data ++ buf.drop (off + data.length)

/-- Outcome of the post-assembly hash check.  `reenqueued` is the
behaviour the specification describes for a failed check; the embedded
source never produces it. -/
inductive CommitOutcome
  | committed (buf : List Nat)
  | reenqueued
  | panicked
deriving DecidableEq, Repr

/-- The embedding of the post-assembly step of `download::all`
(src/download.rs lines 277-282): compute SHA-1 of the assembled blocks
(the SHA-1 implementation is the external `sha1` crate, abstracted as the
function argument `sha1F`), `assert_eq!` it against the expected piece
hash — a mismatch PANICS — and on success splice the assembled buffer
into the content buffer at offset `index * plength`. -/
def commitPiece (sha1F : List Nat → List Nat) (expected blocks contentBuf : List Nat)
    (index plength : Nat) : CommitOutcome :=
  if sha1F blocks = expected then
    .committed (writeAt contentBuf (index * plength) blocks)
  else
    .panicked

/-! ## Peer-session establishment loop (src/download.rs lines 164-178) -/

/-- The embedding of the session-keeping loop of `download::all`: each
element of `results` is the outcome of one connection attempt (`some p`
for a successfully handshaken peer, `none` for a failure).  Successful
peers are pushed onto the accumulator; the loop breaks once the list
length EXCEEDS 5 (`if peer_list.len() > 5 { break; }`), i.e. after the
sixth success; failures are skipped. -/
def keepPeers : List (Option Nat) → List Nat → List Nat
  | [], acc => acc
  | r :: rest, acc =>
    match r with
    | some p =>
      let acc2 := acc ++ [p]
      if acc2.length > 5 then acc2 else keepPeers rest acc2
    | none => keepPeers rest acc

/-! ## Helper lemmas -/

/-- The bitfield mask `1u8.rotate_right(r + 1)` is the power of two
selecting bit `7 - r` (MSB-first numbering), for every bit offset `r < 8`. -/
theorem rotr8_mask (r : Nat) (h : r < 8) : rotr8 1 (r + 1) = 2 ^ (7 - r) := by
  interval_cases r <;> decide

/-- Masking with a power of two tests the same bit as shifting right and
masking with 1. -/
theorem bit_test (byte k : Nat) :
    (byte &&& 2 ^ k ≠ 0) ↔ ((byte >>> k) &&& 1 = 1) := by
  rw [Nat.and_one_is_mod, Nat.shiftRight_eq_div_pow, Nat.and_two_pow]
  have hdm := Nat.testBit_to_div_mod (x := byte) (i := k)
  cases h : byte.testBit k
  · rw [h] at hdm
    simp only [Bool.toNat_false, Nat.zero_mul, ne_eq, not_true_eq_false]
    constructor
    · intro hc
      exact hc.elim
    · intro h1
      rw [eq_comm, decide_eq_false_iff_not] at hdm
      exact absurd h1 hdm
  · rw [h] at hdm
    rw [eq_comm, decide_eq_true_iff] at hdm
    simp only [Bool.toNat_true, Nat.one_mul, ne_eq]
    constructor
    · intro _
      exact hdm
    · intro _
      positivity

/-- The compact peer serialization emits exactly six bytes per peer. -/
theorem serialize_length (ps : List SockAddr) :
    (Peers.serialize ps).length = 6 * ps.length := by
  induction ps with
  | nil => rfl
  | cons p ps ih =>
    simp only [Peers.serialize, List.length_cons, ih]
    omega

/-- Chunk-decoding inverts the compact peer serialization on well-formed
addresses. -/
theorem peersChunks_serialize (ps : List SockAddr) (h : ∀ p ∈ ps, p.wf) :
    peersChunks (Peers.serialize ps) = ps := by
  induction ps with
  | nil => rfl
  | cons p ps ih =>
    obtain ⟨-, -, -, -, hport⟩ := h p (by simp)
    have hdiv : p.port / 256 < 256 := by omega
    simp only [Peers.serialize, peersChunks]
    rw [ih (fun q hq => h q (by simp [hq]))]
    have hp : p.port / 256 % 256 * 256 + p.port % 256 = p.port := by
      rw [Nat.mod_eq_of_lt hdiv]
      omega
    rw [hp]

/-- The no-peer side of the piece split is empty exactly when every piece
has at least one holding peer. -/
theorem splitByHolders_fst_nil (holders : List (List Nat)) :
    ∀ i : Nat, (splitByHolders holders i).1 = [] ↔ ∀ h ∈ holders, h ≠ [] := by
  induction holders with
  | nil =>
    intro i
    simp [splitByHolders]
  | cons h rest ih =>
    intro i
    by_cases hh : h = []
    · simp [splitByHolders, hh]
    · simp only [splitByHolders, if_neg hh, List.mem_cons]
      constructor
      · intro he q hq
        rcases hq with hq | hq
        · rw [hq]
          exact hh
        · exact ((ih (i + 1)).mp he) q hq
      · intro hq
        exact (ih (i + 1)).mpr (fun q hqr => hq q (Or.inr hqr))

/-- The session-keeping loop never grows the accumulator beyond six
entries when it starts at five or fewer. -/
theorem keepPeers_length_le (results : List (Option Nat)) :
    ∀ acc : List Nat, acc.length ≤ 5 → (keepPeers results acc).length ≤ 6 := by
  induction results with
  | nil =>
    intro acc hacc
    simp only [keepPeers]
    omega
  | cons r rest ih =>
    intro acc hacc
    cases r with
    | some p =>
      simp only [keepPeers]
      by_cases hlen : (acc ++ [p]).length > 5
      · rw [if_pos hlen]
        simp only [List.length_append, List.length_cons, List.length_nil]
        omega
      · rw [if_neg hlen]
        exact ih (acc ++ [p]) (by omega)
    | none =>
      simp only [keepPeers]
      exact ih acc hacc

/-- Invariant of the send-retry loop: started at attempt `a` with delay
`15 · 2^a` and fuel `10 - a`, it makes at most `9 - a` further send
calls, fails overall exactly when every send through attempt 8 fails,
and sleeps the doubling delays `15 · 2^(a+k)`. -/
theorem retryLoopAux_spec (sendOk : Nat → Bool) :
    ∀ (fuel a : Nat), a + fuel = 10 →
      ((retryLoopAux sendOk fuel a (15 * 2 ^ a)).2.1 ≤ 9 - a) ∧
      ((retryLoopAux sendOk fuel a (15 * 2 ^ a)).1 = false ↔
        ∀ k, a ≤ k → k < 9 → sendOk k = false) ∧
      ((retryLoopAux sendOk fuel a (15 * 2 ^ a)).2.2 =
        (List.range (retryLoopAux sendOk fuel a (15 * 2 ^ a)).2.2.length).map
          (fun k => 15 * 2 ^ (a + k))) := by
  intro fuel
  induction fuel with
  | zero =>
    intro a ha
    refine ⟨by simp [retryLoopAux], ?_, by simp [retryLoopAux]⟩
    simp only [retryLoopAux]
    constructor
    · intro _ k hk hk9
      omega
    · intro _
      trivial
  | succ fuel ih =>
    intro a ha
    by_cases h8 : a > 8
    · refine ⟨by simp [retryLoopAux, h8], ?_, by simp [retryLoopAux, h8]⟩
      simp only [retryLoopAux, if_pos h8]
      constructor
      · intro _ k hk hk9
        omega
      · intro _
        trivial
    · by_cases hs : sendOk a = true
      · refine ⟨by simp [retryLoopAux, h8, hs]; omega, ?_,
          by simp [retryLoopAux, h8, hs]⟩
        simp only [retryLoopAux, if_neg h8, if_pos hs]
        constructor
        · intro h
          exact absurd h (by simp)
        · intro h
          exact absurd (h a le_rfl (by omega)) (by simp [hs])
      · have hs' : sendOk a = false := by
          simp at hs
          exact hs
        have harg : 15 * 2 ^ a * 2 = 15 * 2 ^ (a + 1) := by ring
        obtain ⟨ih1, ih2, ih3⟩ := ih (a + 1) (by omega)
        have hunf : retryLoopAux sendOk (fuel + 1) a (15 * 2 ^ a) =
            ((retryLoopAux sendOk fuel (a + 1) (15 * 2 ^ (a + 1))).1,
             (retryLoopAux sendOk fuel (a + 1) (15 * 2 ^ (a + 1))).2.1 + 1,
             15 * 2 ^ a :: (retryLoopAux sendOk fuel (a + 1) (15 * 2 ^ (a + 1))).2.2) := by
          simp only [retryLoopAux, if_neg h8, hs', Bool.false_eq_true, if_false]
          rw [harg]
        have key : ∀ (L : List Nat),
            L = (List.range L.length).map (fun k => 15 * 2 ^ (a + 1 + k)) →
            15 * 2 ^ a :: L =
              (List.range (L.length + 1)).map (fun k => 15 * 2 ^ (a + k)) := by
          intro L hL
          rw [List.range_succ_eq_map, List.map_cons, List.map_map]
          congr 1
          conv_lhs => rw [hL]
          apply List.map_congr_left
          intro k _
          simp only [Function.comp]
          have hx : a + 1 + k = a + k.succ := by omega
          rw [hx]
        refine ⟨?_, ?_, ?_⟩
        · rw [hunf]
          simp only
          omega
        · rw [hunf]
          simp only
          rw [ih2]
          constructor
          · intro h k hk hk9
            rcases Nat.eq_or_lt_of_le hk with he | hl
            · exact he ▸ hs'
            · exact h k hl hk9
          · intro h k hk hk9
            exact h k (by omega) hk9
        · rw [hunf]
          simp only [List.length_cons]
          exact key _ ih3

/-! ## Claim theorems -/

/-- C1: the claim states that `Message::encode` writes the 4-byte length
prefix big-endian so that `Message::decode` reads back the written
length.  The code instead writes the prefix LITTLE-endian
(`write_u32_le`) while `decode` reads big-endian: the Interested message
(payload length 0, so prefix value 1) is encoded as `[1,0,0,0,2]`, whose
big-endian prefix reads back as 16777216, and decoding the encoded bytes
fails outright. -/
theorem c1_length_prefix_endianness_mismatch :
    Message.encode .Interested [] = some [1, 0, 0, 0, 2] ∧
    u32BE 1 = [0, 0, 0, 1] ∧
    readU32BE [1, 0, 0, 0, 2] = some (16777216, [2]) ∧
    16777216 ≠ 1 ∧
    Message.decode [1, 0, 0, 0, 2] = none := by decide

/-- C2: the claim states the Request built for block `b` has
`begin = b · 16384` and length 16384 except for a shorter final block.
`Peer::participate` instead passes the block INDEX as the
`remaining_piece` argument of `block::Request::new`, producing
`begin = piece_length - b` and `length = min(16384, b)`: for
`piece_length = 32768` (two blocks) and `b = 0` the code builds
`begin = 32768, length = 0` where the claim requires
`begin = 0, length = 16384`. -/
theorem c2_block_request_fields_wrong :
    participateRequest 7 0 32768 = ⟨7, 32768, 0⟩ ∧
    specBlockRequest 7 0 32768 2 = ⟨7, 0, 16384⟩ ∧
    participateRequest 7 0 32768 ≠ specBlockRequest 7 0 32768 2 ∧
    (participateRequest 7 1 32768).begin = 32767 ∧
    (participateRequest 7 1 32768).length = 1 := by decide

/-- C3 counterexample: the claim states that a piece whose SHA-1 digest
does not match the expected hash is discarded and re-enqueued with the
download continuing; at a concrete mismatching input the code instead
hits `assert_eq!` and panics. -/
theorem c3_hash_mismatch_panics :
    commitPiece (fun _ => [0]) [1] [7, 7] [0, 0, 0, 0] 0 2 = .panicked ∧
    CommitOutcome.panicked ≠ CommitOutcome.reenqueued := by decide

/-- C3 amended: after assembling a piece the scheduler computes SHA-1
over the assembled buffer; if the digest equals the expected hash the
buffer is written at offset `index · plength` of the content buffer, and
if it does not match the program PANICS (`assert_eq!`), terminating the
download rather than re-enqueueing the piece. -/
theorem c3_commit_amended (sha1F : List Nat → List Nat)
    (expected blocks contentBuf : List Nat) (index plength : Nat) :
    (sha1F blocks = expected →
      commitPiece sha1F expected blocks contentBuf index plength =
        .committed (writeAt contentBuf (index * plength) blocks)) ∧
    (sha1F blocks ≠ expected →
      commitPiece sha1F expected blocks contentBuf index plength = .panicked) := by
  unfold commitPiece
  constructor
  · intro h
    rw [if_pos h]
  · intro h
    rw [if_neg h]

/-- C3 witness: the amended commit behaviour at concrete inputs, one
matching and one mismatching. -/
theorem c3_commit_amended_witness :
    commitPiece (fun _ => [0]) [0] [7] [0, 0] 0 1 =
      .committed (writeAt [0, 0] 0 [7]) ∧
    commitPiece (fun _ => [0]) [1] [7] [0, 0] 0 1 = .panicked :=
  ⟨(c3_commit_amended (fun _ => [0]) [0] [7] [0, 0] 0 1).1 rfl,
   (c3_commit_amended (fun _ => [0]) [1] [7] [0, 0] 0 1).2 (by decide)⟩

/-- C4 counterexample: the claim states that pieces without a holder are
fatal only when ALL pieces lack one; with two pieces of which exactly one
has a holder, the code hits `assert!(no_peers.is_empty())` and panics
although a piece with a holder exists. -/
theorem c4_single_no_peer_piece_panics :
    setupPieces [[0], []] = .panicked ∧
    ¬(∀ h ∈ [[0], ([] : List Nat)], h = []) := by decide

/-- C4 amended: at scheduler start every piece with no known holding peer
is deferred to the no-peer list, and the download panics as soon as ANY
piece lands on that list; it proceeds (with exactly the pieces that have
holders) only when every piece has at least one holder. -/
theorem c4_setup_amended (holders : List (List Nat)) :
    ((∀ h ∈ holders, h ≠ []) →
      setupPieces holders = .proceed (splitByHolders holders 0).2) ∧
    ((∃ h ∈ holders, h = []) → setupPieces holders = .panicked) := by
  constructor
  · intro h
    unfold setupPieces
    rw [if_pos ((splitByHolders_fst_nil holders 0).mpr h)]
  · intro hex
    obtain ⟨x, hx, hxe⟩ := hex
    unfold setupPieces
    rw [if_neg (fun hEq => ((splitByHolders_fst_nil holders 0).mp hEq) x hx hxe)]

/-- C4 witness: the amended setup behaviour at concrete inputs. -/
theorem c4_setup_amended_witness :
    setupPieces [[5], [2]] = .proceed (splitByHolders [[5], [2]] 0).2 ∧
    setupPieces [[]] = .panicked :=
  ⟨(c4_setup_amended [[5], [2]]).1 (by decide),
   (c4_setup_amended [[]]).2 (by decide)⟩

/-- C5 counterexample: the claim states a response whose transaction id
differs from the outstanding one is discarded silently with state
unchanged; decoding a Connect response with transaction id 2 while the
outstanding id is 1 instead hits `assert_eq!` and panics. -/
theorem c5_transaction_id_mismatch_panics :
    Response.read (u32BE 0 ++ u32BE 2 ++ u64BE 99) = some (.connect ⟨99, 2⟩) ∧
    handleResponse 1 (.connect ⟨99, 2⟩) = .panicked ∧
    HandleOutcome.panicked ≠ HandleOutcome.ignored := by decide

/-- C5 amended: a Connect or Announce response whose transaction id
matches the outstanding request updates the state (stores the connection
id and moves to announce) or yields the peer list respectively; a
MISMATCHED transaction id causes an `assert_eq!` panic terminating the
client; Scrape and Error responses are ignored with the state unchanged. -/
theorem c5_handle_amended (tid : Nat) (c : ConnectResponse)
    (a : AnnounceResponse) (s : ScrapeResponse) (e : ErrorResponse) :
    (c.transaction_id = tid →
      handleResponse tid (.connect c) = .updated 1 c.connection_id) ∧
    (c.transaction_id ≠ tid → handleResponse tid (.connect c) = .panicked) ∧
    (a.transaction_id = tid →
      handleResponse tid (.announce a) = .gotPeers a.peers) ∧
    (a.transaction_id ≠ tid → handleResponse tid (.announce a) = .panicked) ∧
    handleResponse tid (.scrape s) = .ignored ∧
    handleResponse tid (.error e) = .ignored := by
  refine ⟨?_, ?_, ?_, ?_, rfl, rfl⟩
  · intro h
    simp only [handleResponse]
    rw [if_pos h]
  · intro h
    simp only [handleResponse]
    rw [if_neg h]
  · intro h
    simp only [handleResponse]
    rw [if_pos h]
  · intro h
    simp only [handleResponse]
    rw [if_neg h]

/-- C5 witness: the amended dispatch behaviour at concrete inputs. -/
theorem c5_handle_amended_witness :
    handleResponse 7 (.connect ⟨99, 7⟩) = .updated 1 99 ∧
    handleResponse 7 (.connect ⟨99, 8⟩) = .panicked ∧
    handleResponse 7 (.announce ⟨7, 900, 1, 2, []⟩) = .gotPeers [] ∧
    handleResponse 7 (.announce ⟨8, 900, 1, 2, []⟩) = .panicked ∧
    handleResponse 7 (.scrape ⟨7, []⟩) = .ignored ∧
    handleResponse 7 (.error ⟨7, []⟩) = .ignored :=
  ⟨(c5_handle_amended 7 ⟨99, 7⟩ ⟨7, 900, 1, 2, []⟩ ⟨7, []⟩ ⟨7, []⟩).1 rfl,
   (c5_handle_amended 7 ⟨99, 8⟩ ⟨7, 900, 1, 2, []⟩ ⟨7, []⟩ ⟨7, []⟩).2.1 (by decide),
   (c5_handle_amended 7 ⟨99, 7⟩ ⟨7, 900, 1, 2, []⟩ ⟨7, []⟩ ⟨7, []⟩).2.2.1 rfl,
   (c5_handle_amended 7 ⟨99, 7⟩ ⟨8, 900, 1, 2, []⟩ ⟨7, []⟩ ⟨7, []⟩).2.2.2.1 (by decide),
   (c5_handle_amended 7 ⟨99, 7⟩ ⟨7, 900, 1, 2, []⟩ ⟨7, []⟩ ⟨7, []⟩).2.2.2.2.1,
   (c5_handle_amended 7 ⟨99, 7⟩ ⟨7, 900, 1, 2, []⟩ ⟨7, []⟩ ⟨7, []⟩).2.2.2.2.2⟩

/-- C6 counterexample: the claim states at most 8 attempts total are
made; when every send fails the loop makes NINE send calls (attempts
0 through 8, guard `attempts > 8`) before failing, sleeping the doubling
delays 15, 30, ..., 3840 seconds. -/
theorem c6_nine_send_attempts :
    retryLoop (fun _ => false) =
      (false, 9, [15, 30, 60, 120, 240, 480, 960, 1920, 3840]) ∧
    ¬(retryLoop (fun _ => false)).2.1 ≤ 8 := by decide

/-- C6 amended: the send loop of the UDP announce retries only when the
`send_to` call itself FAILS (a received-no-response timeout does not
exist: the subsequent `recv` waits indefinitely); on each failed send it
sleeps an exponential back-off delay starting at 15 seconds and doubling
per retry, and at most NINE send attempts are made before the announce
fails with an error. -/
theorem c6_retry_amended (sendOk : Nat → Bool) :
    (retryLoop sendOk).2.1 ≤ 9 ∧
    ((retryLoop sendOk).1 = false ↔ ∀ k < 9, sendOk k = false) ∧
    (retryLoop sendOk).2.2 =
      (List.range (retryLoop sendOk).2.2.length).map (fun k => 15 * 2 ^ k) := by
  obtain ⟨h1, h2, h3⟩ := retryLoopAux_spec sendOk 10 0 (by omega)
  simp only [pow_zero, Nat.mul_one, Nat.zero_add] at h1 h2 h3
  refine ⟨by simpa [retryLoop] using h1, ?_, by simpa [retryLoop] using h3⟩
  rw [show retryLoop sendOk = retryLoopAux sendOk 10 0 15 from rfl]
  rw [h2]
  constructor
  · intro h k hk
    exact h k (by omega) hk
  · intro h k _ hk
    exact h k hk

/-- C6 witness: the amended retry bound at a concrete send schedule. -/
theorem c6_retry_amended_witness :
    (retryLoop (fun k => decide (k = 2))).2.1 ≤ 9 :=
  (c6_retry_amended (fun k => decide (k = 2))).1

/-- C7: the claim states a frame with length prefix 0 is treated as a
keep-alive, consuming no id byte and succeeding.  The code instead
unconditionally reads an id byte and then computes `(length - 1) as
usize` on `length = 0`, a `u32` underflow: decoding fails on the bare
keep-alive frame (no id byte to read) and on a keep-alive frame followed
by further bytes (the underflow), never returning successfully. -/
theorem c7_keepalive_not_handled :
    Message.decode [0, 0, 0, 0] = none ∧
    Message.decode [0, 0, 0, 0, 1, 2, 3] = none ∧
    Message.decode [0, 0, 0, 1, 4] = some (⟨1, .Have, []⟩, []) := by decide

/-- C8 counterexample: the claim states the kept session list never
exceeds 5 entries; with six successful connection results the loop
(`if peer_list.len() > 5 break`) keeps SIX sessions. -/
theorem c8_six_peer_sessions_kept :
    keepPeers [some 0, some 1, some 2, some 3, some 4, some 5, some 6] [] =
      [0, 1, 2, 3, 4, 5] ∧
    ¬(keepPeers [some 0, some 1, some 2, some 3, some 4, some 5, some 6] []).length ≤ 5 := by
  decide

/-- C8 amended: session establishment stops only once MORE than 5
sessions have succeeded, so the kept peer-session list can reach six
entries but never more than six. -/
theorem c8_keep_amended (results : List (Option Nat)) :
    (keepPeers results []).length ≤ 6 :=
  keepPeers_length_le results [] (by simp)

/-- C8 witness: the amended bound at a concrete result list. -/
theorem c8_keep_amended_witness :
    (keepPeers [some 1, none, some 2] []).length ≤ 6 :=
  c8_keep_amended [some 1, none, some 2]

/-- C9: for every byte list `b` and index `i`, if `i < 8·len(b)` then
`has_piece b i` tests bit `7 - i % 8` of byte `b[i / 8]` (MSB-first
numbering), and if `i ≥ 8·len(b)` it returns `false` without panicking. -/
theorem c9_bitfield_has_piece (b : List Nat) (i : Nat) :
    (i < 8 * b.length →
      (Bitfield.has_piece b i = true ↔
        (b.getD (i / 8) 0 >>> (7 - i % 8)) &&& 1 = 1)) ∧
    (8 * b.length ≤ i → Bitfield.has_piece b i = false) := by
  constructor
  · intro hi
    have hidx : i / 8 < b.length := Nat.div_lt_of_lt_mul (by omega)
    have hget : b.get? (i / 8) = some (b.getD (i / 8) 0) := by
      rw [List.get?_eq_getElem?, List.getD_eq_getElem?_getD,
        List.getElem?_eq_getElem hidx]
      rfl
    unfold Bitfield.has_piece
    rw [hget, rotr8_mask (i % 8) (Nat.mod_lt _ (by omega)), decide_eq_true_iff]
    exact bit_test _ _
  · intro hi
    have hidx : b.length ≤ i / 8 := (Nat.le_div_iff_mul_le (by omega)).mpr (by omega)
    have hget : b.get? (i / 8) = none := by
      rw [List.get?_eq_getElem?]
      exact List.getElem?_eq_none hidx
    unfold Bitfield.has_piece
    rw [hget]

/-- C9 witness: the bitfield behaviour at concrete inputs inside and
beyond the payload. -/
theorem c9_bitfield_has_piece_witness :
    (Bitfield.has_piece [128] 0 = true ↔
      ((([128] : List Nat).getD (0 / 8) 0 >>> (7 - 0 % 8)) &&& 1 = 1)) ∧
    Bitfield.has_piece [128] 8 = false :=
  ⟨(c9_bitfield_has_piece [128] 0).1 (by decide),
   (c9_bitfield_has_piece [128] 8).2 (by decide)⟩

/-- C10: serializing a list of well-formed IPv4 socket addresses with the
HTTP tracker Peers serializer (four octets then the port big-endian) and
deserializing the bytes yields the original list, and deserializing an
arbitrary byte string fails exactly when its length is not a multiple
of 6. -/
theorem c10_peers_roundtrip (ps : List SockAddr) (v : List Nat) :
    ((∀ p ∈ ps, p.wf) → visit_bytes (Peers.serialize ps) = some ps) ∧
    (visit_bytes v = none ↔ v.length % 6 ≠ 0) := by
  constructor
  · intro h
    unfold visit_bytes
    rw [serialize_length, if_neg (by omega), peersChunks_serialize ps h]
  · unfold visit_bytes
    by_cases hc : v.length % 6 = 0
    · rw [if_neg (by omega)]
      simp [hc]
    · rw [if_pos hc]
      simp [hc]

/-- C10 witness: the round trip at the peer list of the repository's own
HTTP tracker test, and the failure side at a 1-byte string. -/
theorem c10_peers_roundtrip_witness :
    visit_bytes (Peers.serialize [⟨192, 0, 2, 123, 6881⟩, ⟨127, 0, 0, 1, 6889⟩]) =
      some [⟨192, 0, 2, 123, 6881⟩, ⟨127, 0, 0, 1, 6889⟩] ∧
    (visit_bytes [0] = none ↔ ([0] : List Nat).length % 6 ≠ 0) :=
  ⟨(c10_peers_roundtrip [⟨192, 0, 2, 123, 6881⟩, ⟨127, 0, 0, 1, 6889⟩] [0]).1
      (by decide),
   (c10_peers_roundtrip [] [0]).2⟩
